import Mathlib

/-!
Shallow embedding of the Habitica integration's task utilities
(`homeassistant/components/habitica/util.py`, `services.py`, `__init__.py`,
`const.py`) and proofs about due-date computation, date parsing, recurrence
rules, partial-update payload construction, tag resolution and error
classification.

Dates are modelled as day numbers (days since 1970-01-01, proleptic
Gregorian) and date-times as minute counts (`civMin`, civil minutes since the
epoch) together with an optional fixed UTC offset in minutes.  Home
Assistant's configured local timezone (`dt_util.DEFAULT_TIME_ZONE`) is
modelled as a fixed offset `off` in minutes, passed as a parameter.
-/

set_option maxRecDepth 4096

deriving instance DecidableEq for Except

namespace Habitica

/-! ## Calendar arithmetic -/

/-- Gregorian leap-year test, as in Python's `calendar.isleap` used by
`datetime.date`. -/
def isLeap (y : Int) : Bool :=
  y % 4 = 0 && (y % 100 != 0 || y % 400 = 0)

/-- Number of days in a month of a given year. -/
def daysInMonth (y m : Int) : Int :=
  if m = 2 then (if isLeap y then 29 else 28)
  else if m = 4 ∨ m = 6 ∨ m = 9 ∨ m = 11 then 30
  else 31

/-- Validity of a civil date as enforced by Python's `datetime.date`
constructor (year 1..9999, month 1..12, day within month). -/
def validDate (y m d : Int) : Bool :=
  1 ≤ y && y ≤ 9999 && 1 ≤ m && m ≤ 12 && 1 ≤ d && d ≤ daysInMonth y m

/-- Day number (days since 1970-01-01) of a civil date, standard civil
calendar algorithm. -/
def daysFromCivil (y m d : Int) : Int :=
  let y' : Int := if m ≤ 2 then y - 1 else y
  let era : Int := y'.fdiv 400
  let yoe : Int := y' - era * 400
  let mp : Int := if m ≤ 2 then m + 9 else m - 3
  let doy : Int := (153 * mp + 2).fdiv 5 + d - 1
  let doe : Int := yoe * 365 + yoe.fdiv 4 - yoe.fdiv 100 + doy
  era * 146097 + doe - 719468

/-- Civil date (year, month, day) of a day number; inverse of
`daysFromCivil`. -/
def civilFromDays (z0 : Int) : Int × Int × Int :=
  let z : Int := z0 + 719468
  let era : Int := z.fdiv 146097
  let doe : Int := z - era * 146097
  let yoe : Int := (doe - doe.fdiv 1460 + doe.fdiv 36524 - doe.fdiv 146096).fdiv 365
  let y : Int := yoe + era * 400
  let doy : Int := doe - (365 * yoe + yoe.fdiv 4 - yoe.fdiv 100)
  let mp : Int := (5 * doy + 2).fdiv 153
  let d : Int := doy - (153 * mp + 2).fdiv 5 + 1
  let m : Int := if mp < 10 then mp + 3 else mp - 9
  (if m ≤ 2 then y + 1 else y, m, d)

/-- A Python `datetime.datetime` at minute precision: civil minutes since the
epoch plus an optional fixed UTC offset in minutes (`None` = naive).
Seconds and microseconds never cross a date boundary relative to
whole-minute offsets, so they are not tracked. -/
structure PyDateTime where
  civMin : Int
  tz : Option Int
deriving DecidableEq, Repr

/-! ## Date-string parsing (`to_date` helpers) -/

/-- Split a character list at a separator (as Python's `str.split(sep)`). -/
def splitOnChar (sep : Char) : List Char → List (List Char)
  | [] => [[]]
  | c :: rest =>
      let r := splitOnChar sep rest
      if c = sep then [] :: r
      else
        match r with
        | [] => [[c]]
        | g :: gs => (c :: g) :: gs

/-- `str.lower()` (ASCII case folding suffices for the inputs concerned). -/
def lowerStr (s : String) : String := String.mk (s.data.map Char.toLower)

/-- Read exactly `n` decimal digits, returning their value and the rest. -/
def readDigits : Nat → Nat → List Char → Option (Nat × List Char)
  | 0, acc, l => some (acc, l)
  | n + 1, acc, c :: l =>
      if c.isDigit then readDigits n (acc * 10 + (c.toNat - 48)) l else none
  | _ + 1, _, [] => none

/-- Parse a UTC-offset body `HH:MM` or `HHMM` (to end of input), in minutes. -/
def parseOffsetBody (l : List Char) : Option Int :=
  match readDigits 2 0 l with
  | some (h, ':' :: r) =>
      match readDigits 2 0 r with
      | some (mi, []) => if h < 24 && mi < 60 then some ((h : Int) * 60 + mi) else none
      | _ => none
  | some (h, r) =>
      match readDigits 2 0 r with
      | some (mi, []) => if h < 24 && mi < 60 then some ((h : Int) * 60 + mi) else none
      | _ => none
  | none => none

/-- Parse the timezone suffix of an ISO-8601 string: empty (naive), `Z`,
`+HH:MM`, `-HH:MM`, `+HHMM` or `-HHMM`. -/
def parseIsoTz : List Char → Option (Option Int)
  | [] => some none
  | ['Z'] => some (some 0)
  | '+' :: r => (parseOffsetBody r).map fun m => some m
  | '-' :: r => (parseOffsetBody r).map fun m => some (-m)
  | _ => none

/-- Skip an optional fractional-seconds part `.d{1,6}`. -/
def skipFrac : List Char → Option (List Char)
  | '.' :: r =>
      let ds := r.takeWhile Char.isDigit
      if 1 ≤ ds.length && ds.length ≤ 6 then some (r.dropWhile Char.isDigit) else none
  | l => some l

/-- Parse the time-of-day part `HH:MM[:SS[.ffffff]]` followed by an optional
timezone suffix; returns minutes within the day and the offset. -/
def parseIsoTime (l : List Char) : Option (Int × Option Int) :=
  match readDigits 2 0 l with
  | some (h, ':' :: r) =>
      match readDigits 2 0 r with
      | some (mi, r2) =>
          if h < 24 && mi < 60 then
            match r2 with
            | ':' :: r3 =>
                match readDigits 2 0 r3 with
                | some (sec, r4) =>
                    if sec < 62 then
                      match skipFrac r4 with
                      | some r5 => (parseIsoTz r5).map fun tz => ((h : Int) * 60 + mi, tz)
                      | none => none
                    else none
                | none => none
            | _ => (parseIsoTz r2).map fun tz => ((h : Int) * 60 + mi, tz)
          else none
      | none => none
  | _ => none

/-- Model of Python's `datetime.datetime.fromisoformat` on the extended
format `YYYY-MM-DD[(T| )HH:MM[:SS[.ffffff]]][Z|±HH:MM|±HHMM]` (the subset
exercised by this integration); everything else is rejected, modelling the
`ValueError` raised by CPython. -/
def fromisoformat (s : String) : Option PyDateTime :=
  match readDigits 4 0 s.data with
  | some (y, '-' :: r1) =>
      match readDigits 2 0 r1 with
      | some (mo, '-' :: r2) =>
          match readDigits 2 0 r2 with
          | some (d, rest) =>
              if validDate (y : Int) (mo : Int) (d : Int) then
                match rest with
                | [] => some { civMin := daysFromCivil (y : Int) (mo : Int) (d : Int) * 1440, tz := none }
                | c :: r3 =>
                    if c = 'T' ∨ c = ' ' then
                      (parseIsoTime r3).map fun p =>
                        { civMin := daysFromCivil (y : Int) (mo : Int) (d : Int) * 1440 + p.1, tz := p.2 }
                    else none
              else none
          | none => none
      | _ => none
  | _ => none

/-- Lower-case abbreviated weekday names accepted by `strptime`'s `%a`. -/
def weekdayAbbrevs : List String :=
  ["mon", "tue", "wed", "thu", "fri", "sat", "sun"]

/-- Lower-case abbreviated month names accepted by `strptime`'s `%b`. -/
def monthAbbrevs : List String :=
  ["jan", "feb", "mar", "apr", "may", "jun", "jul", "aug", "sep", "oct", "nov", "dec"]

/-- Parse a one- or two-digit number (as `%d`, `%H`, `%M`, `%S` accept). -/
def parseSmallNat (s : String) : Option Nat :=
  match s.data with
  | [c] => if c.isDigit then some (c.toNat - 48) else none
  | [c1, c2] =>
      if c1.isDigit && c2.isDigit then some ((c1.toNat - 48) * 10 + (c2.toNat - 48)) else none
  | _ => none

/-- Month number from an abbreviated month name, case-insensitively. -/
def monthFromAbbrev (s : String) : Option Nat :=
  (monthAbbrevs.findIdx? (fun m => m == lowerStr s)).map (· + 1)

/-- Parse a `%z` offset: `Z`, `±HH:MM` or `±HHMM`, in minutes. -/
def parseZOffset : List Char → Option Int
  | ['Z'] => some 0
  | '+' :: r => parseOffsetBody r
  | '-' :: r => (parseOffsetBody r).map Neg.neg
  | _ => none

/-- Parse the final `%Z%z` token of the legacy format, e.g. `GMT+0200`:
a known timezone name (modelled: `GMT`/`UTC`, case-insensitively, as matched
by CPython's `%Z`) directly followed by a `%z` offset. -/
def parseLegacyTzTok (s : String) : Option Int :=
  let name := String.mk (s.data.takeWhile Char.isAlpha)
  let rest := s.data.dropWhile Char.isAlpha
  if lowerStr name = "gmt" ∨ lowerStr name = "utc" then parseZOffset rest else none

/-- Model of `datetime.datetime.strptime(date, "%a %b %d %Y %H:%M:%S %Z%z")`,
the fallback for JavaScript datetime strings such as
`"Mon May 06 2024 00:00:00 GMT+0200"`; returns `none` where CPython raises
`ValueError`. -/
def strptime_js (s : String) : Option PyDateTime :=
  match (splitOnChar ' ' s.data).map String.mk with
  | [wd, mon, dd, yyyy, hms, tzs] =>
      if lowerStr wd ∈ weekdayAbbrevs then
        match monthFromAbbrev mon, parseSmallNat dd, readDigits 4 0 yyyy.data with
        | some mo, some d, some (y, []) =>
            match (splitOnChar ':' hms.data).map String.mk with
            | [hh, mm, ss] =>
                match parseSmallNat hh, parseSmallNat mm, parseSmallNat ss with
                | some h, some mi, some sec =>
                    if h < 24 && mi < 60 && sec < 62 && validDate (y : Int) (mo : Int) (d : Int) then
                      (parseLegacyTzTok tzs).map fun o =>
                        { civMin := daysFromCivil (y : Int) (mo : Int) (d : Int) * 1440 + (h : Int) * 60 + mi,
                          tz := some o }
                    else none
                | _, _, _ => none
            | _ => none
        | _, _, _ => none
      else none
  | _ => none

/-- `dt_util.as_local(dt).date()`: a naive datetime is assumed to already be
in the local timezone (date unchanged); an aware one is converted to the
local timezone, modelled by the fixed offset `off` in minutes. -/
def as_local_date (off : Int) (dt : PyDateTime) : Int :=
  match dt.tz with
  | none => dt.civMin.fdiv 1440
  | some o => (dt.civMin - o + off).fdiv 1440

/-- `util.to_date`: try ISO-8601 first, fall back to the legacy JavaScript
format, return `None` when both raise `ValueError`. -/
def to_date (off : Int) (s : String) : Option Int :=
  match fromisoformat s with
  | some dt => some (as_local_date off dt)
  | none =>
      match strptime_js s with
      | some dt => some (as_local_date off dt)
      | none => none

/-! ## Task records and `next_due_date` -/

/-- The per-weekday flags of a Habitica task's `repeat` object, in the order
the Habitica API serialises them. -/
structure RepeatFlags where
  m : Bool
  t : Bool
  w : Bool
  th : Bool
  f : Bool
  s : Bool
  su : Bool
deriving DecidableEq, Repr

/-- The fields of a Habitica daily-task record read by `next_due_date` and
`build_rrule`. -/
structure Task where
  everyX : Int
  startDate : String
  frequency : String
  daysOfMonth : List Int
  weeksOfMonth : List Int
  rpt : RepeatFlags
  isDue : Bool
  completed : Bool
  nextDue : List String
deriving DecidableEq, Repr

/-- Python exceptions that the embedded functions can raise. -/
inductive PyExc
  | typeError
  | indexError
  | keyError
deriving DecidableEq, Repr

/-- `util.next_due_date(task, last_cron)`.  `None` comparisons (when
`to_date` failed on `last_cron` or `startDate`) raise `TypeError` at
`startdate > today`, as in Python; accessing `task["nextDue"][1]` of a
one-element list raises `IndexError`. -/
def next_due_date (off : Int) (task : Task) (last_cron : String) :
    Except PyExc (Option Int) :=
  match task.nextDue with
  | [] => .ok none
  | nd0 :: rest =>
      if task.everyX = 0 then .ok none
      else
        let today := to_date off last_cron
        let startdate := to_date off task.startDate
        if task.isDue && !task.completed then .ok (to_date off last_cron)
        else
          match startdate, today with
          | some sd, some td =>
              if sd > td then
                if task.frequency = "daily" ∨
                    ((task.frequency = "monthly" ∨ task.frequency = "yearly") ∧
                      task.daysOfMonth ≠ []) then
                  .ok (some sd)
                else if task.frequency = "weekly" ∨ task.frequency = "monthly" then
                  match to_date off nd0 with
                  | some nd =>
                      if sd > nd then
                        match rest with
                        | nd1 :: _ => .ok (to_date off nd1)
                        | [] => .error .indexError
                      else .ok (to_date off nd0)
                  | none => .ok (to_date off nd0)
                else .ok (to_date off nd0)
              else .ok (to_date off nd0)
          | _, _ => .error .typeError

/-! ## Recurrence rules (`build_rrule`) -/

/-- `dateutil.rrule` weekday constants. -/
inductive RWeekday
  | MO
  | TU
  | WE
  | TH
  | FR
  | SA
  | SU
deriving DecidableEq, Repr

/-- `dateutil.rrule` frequency constants. -/
inductive RFreq
  | DAILY
  | WEEKLY
  | MONTHLY
  | YEARLY
deriving DecidableEq, Repr

/-- `util.frequency_map`. -/
def frequency_map : List (String × RFreq) :=
  [("daily", .DAILY), ("weekly", .WEEKLY), ("monthly", .MONTHLY), ("yearly", .YEARLY)]

/-- `util.weekday_map`. -/
def weekday_map : List (String × RWeekday) :=
  [("m", .MO), ("t", .TU), ("w", .WE), ("th", .TH), ("f", .FR), ("s", .SA), ("su", .SU)]

/-- `dict.get`: first (only) binding of a key in an association list. -/
def dictGet {α : Type} (d : List (String × α)) (k : String) : Option α :=
  (d.find? (fun p => p.1 == k)).map (·.2)

/-- `task["repeat"].items()` in the serialisation order of the Habitica API. -/
def repeatItems (r : RepeatFlags) : List (String × Bool) :=
  [("m", r.m), ("t", r.t), ("w", r.w), ("th", r.th), ("f", r.f), ("s", r.s), ("su", r.su)]

/-- The arguments `build_rrule` passes to the `dateutil.rrule.rrule`
constructor. -/
structure RRule where
  freq : RFreq
  interval : Int
  dtstart : Int
  byweekday : Option (List RWeekday)
  bymonthday : Option (List Int)
  bysetpos : Option (List Int)
deriving DecidableEq, Repr

/-- `dt_util.as_local` on a datetime (local civil minutes). -/
def asLocalMin (off : Int) (dt : PyDateTime) : Int :=
  match dt.tz with
  | none => dt.civMin
  | some o => dt.civMin - o + off

/-- `util.build_rrule(task)`: the uncaught `ValueError` of
`datetime.fromisoformat(task["startDate"])` is modelled as `none`. -/
def build_rrule (off : Int) (task : Task) : Option RRule :=
  let rrule_frequency := (dictGet frequency_map task.frequency).getD .DAILY
  let weekdays :=
    (repeatItems task.rpt).filterMap fun p =>
      if p.2 then dictGet weekday_map p.1 else none
  let bymonthday :=
    if rrule_frequency = .MONTHLY ∧ task.daysOfMonth ≠ [] then some task.daysOfMonth
    else none
  let posdays :=
    if rrule_frequency = .MONTHLY ∧ task.weeksOfMonth ≠ [] then
      (some task.weeksOfMonth, if weekdays.isEmpty then [RWeekday.MO] else weekdays)
    else (none, weekdays)
  match fromisoformat task.startDate with
  | none => none
  | some dt =>
      some
        { freq := rrule_frequency
          interval := task.everyX
          dtstart := asLocalMin off dt
          byweekday :=
            if rrule_frequency = .WEEKLY ∨ rrule_frequency = .MONTHLY then some posdays.2
            else none
          bymonthday := bymonthday
          bysetpos := posdays.1 }

/-! ## Service layer: payload construction (`services.py` `update_task`) -/

/-- JSON-like values appearing in the partial-update payload. -/
inductive Value
  | str (s : String)
  | num (q : ℚ)
  | bool (b : Bool)
  | null
  | list (l : List Value)
  | dict (l : List (String × Value))

/-- The partial-update payload `data`, a Python dict in insertion order. -/
abbrev Payload := List (String × Value)

/-- `data.update({k: v})`: replace the value in place if the key exists,
otherwise append. -/
def updateKey (d : Payload) (k : String) (v : Value) : Payload :=
  if d.any (fun p => p.1 == k) then d.map (fun p => if p.1 == k then (k, v) else p)
  else d ++ [(k, v)]

/-- The keys of a payload. -/
def keysOf (d : Payload) : List String := d.map Prod.fst

/-- Python truthiness of an optional string (absent or `""` is falsy). -/
def truthyStr : Option String → Option String
  | some s => if s = "" then none else some s
  | none => none

/-- Python truthiness of an optional list (absent or `[]` is falsy). -/
def truthyList {α : Type} : Option (List α) → Option (List α)
  | some l => if l.isEmpty then none else some l
  | none => none

/-- Python truthiness of an optional int (absent or `0` is falsy). -/
def truthyInt : Option Int → Option Int
  | some n => if n = 0 then none else some n
  | none => none

/-- Python truthiness of an optional number (absent or `0` is falsy). -/
def truthyRat : Option ℚ → Option ℚ
  | some q => if q = 0 then none else some q
  | none => none

/-- The task-priority enum admitted by the service schema
(`vol.In(set(PRIORITIES.keys()))`). -/
inductive Priority
  | trivial
  | easy
  | medium
  | hard
deriving DecidableEq, Repr

/-- `const.PRIORITIES`. -/
def PRIORITIES : Priority → ℚ
  | .trivial => 1 / 10
  | .easy => 1
  | .medium => 3 / 2
  | .hard => 2

/-- `const.WEEK_DAYS`. -/
def WEEK_DAYS : List String := ["m", "t", "w", "th", "f", "s", "su"]

/-- The `repeat_monthly` enum admitted by the service schema. -/
inductive RepeatMonthly
  | day_of_month
  | day_of_week
deriving DecidableEq, Repr

/-- A tag of the user's tag collection (`coordinator.data.user["tags"]`). -/
structure HabiticaTag where
  id : String
  name : String
deriving DecidableEq, Repr

/-- A checklist item of a task. -/
structure ChecklistItem where
  completed : Bool
  id : String
  text : String
deriving DecidableEq, Repr

/-- A reminder of a task; its ISO timestamp is modelled already parsed
(the source round-trips it through `datetime.fromisoformat`). -/
structure Reminder where
  id : String
  startDate : Option String
  time : PyDateTime
deriving DecidableEq, Repr

/-- The fields of the current task (`lookup_task` result) read by
`update_task`. -/
structure CurrentTask where
  id : String
  frequency : String
  startDate : String
  tags : List String
  checklist : List ChecklistItem
  reminders : List Reminder

/-- The validated service-call data (`call.data`), one optional slot per
schema field; dates are day numbers, datetimes civil minutes, times minutes
within the day. -/
structure CallData where
  rename : Option String
  description : Option String
  priority : Option Priority
  date : Option Int
  clear_date : Bool
  tag : Option (List String)
  remove_tag : Option (List String)
  alias_ : Option String
  cost : Option ℚ
  add_checklist_item : Option (List String)
  remove_checklist_item : Option (List String)
  score_checklist_item : Option (List String)
  unscore_checklist_item : Option (List String)
  up_down : Option (List String)
  start_date : Option Int
  frequency : Option String
  interval : Option Int
  rpt : Option (List String)
  repeat_monthly : Option RepeatMonthly
  reminder : Option (List Int)
  reminder_time : Option (List Int)
  remove_reminder : Option (List Int)
  remove_reminder_time : Option (List Int)
  clear_reminder : Bool
  streak : Option Int
  counter_up : Option Int
  counter_down : Option Int

/-- A service call with no optional field present. -/
def emptyCall : CallData where
  rename := none
  description := none
  priority := none
  date := none
  clear_date := false
  tag := none
  remove_tag := none
  alias_ := none
  cost := none
  add_checklist_item := none
  remove_checklist_item := none
  score_checklist_item := none
  unscore_checklist_item := none
  up_down := none
  start_date := none
  frequency := none
  interval := none
  rpt := none
  repeat_monthly := none
  reminder := none
  reminder_time := none
  remove_reminder := none
  remove_reminder_time := none
  clear_reminder := false
  streak := none
  counter_up := none
  counter_down := none

/-- Zero-pad a number to two digits. -/
def pad2 (n : Int) : String :=
  if n < 10 then "0" ++ toString n else toString n

/-- Zero-pad a year to four digits. -/
def pad4 (n : Int) : String :=
  if n < 10 then "000" ++ toString n
  else if n < 100 then "00" ++ toString n
  else if n < 1000 then "0" ++ toString n
  else toString n

/-- `date.isoformat()` of a day number. -/
def isoDate (d : Int) : String :=
  let c := civilFromDays d
  pad4 c.1 ++ "-" ++ pad2 c.2.1 ++ "-" ++ pad2 c.2.2

/-- `datetime.isoformat()` of a naive minute-precision datetime. -/
def isoNaiveMin (t : Int) : String :=
  isoDate (t.fdiv 1440) ++ "T" ++ pad2 ((t.emod 1440).fdiv 60) ++ ":" ++ pad2 (t.emod 60) ++ ":00"

/-- Render a UTC offset as `±HH:MM`, as `datetime.isoformat()` does. -/
def offsetStr (o : Int) : String :=
  (if o < 0 then "-" else "+") ++ pad2 ((o.natAbs / 60 : Nat) : Int) ++ ":" ++
    pad2 ((o.natAbs % 60 : Nat) : Int)

/-- `datetime.isoformat()` of a possibly-aware datetime. -/
def pyDateTimeIso (dt : PyDateTime) : String :=
  match dt.tz with
  | none => isoNaiveMin dt.civMin
  | some o => isoNaiveMin dt.civMin ++ offsetStr o

/-- Render a checklist item back to its JSON dict. -/
def checklistValue (ci : ChecklistItem) : Value :=
  .dict [("completed", .bool ci.completed), ("id", .str ci.id), ("text", .str ci.text)]

/-- Render a reminder back to its JSON dict. -/
def reminderValue (r : Reminder) : Value :=
  .dict
    ([("id", .str r.id)] ++
      (match r.startDate with
        | some sd => [("startDate", .str sd)]
        | none => []) ++
      [("time", .str (pyDateTimeIso r.time))])

/-- Insert into a Python `set` of strings, modelled as a duplicate-free list
in insertion order. -/
def setInsert (l : List String) (x : String) : List String :=
  if x ∈ l then l else l ++ [x]

/-- Build a set from a list. -/
def setOfList (l : List String) : List String := l.foldl setInsert []

/-- `set.update`. -/
def setUnion (l xs : List String) : List String := xs.foldl setInsert l

/-- `set.difference_update`. -/
def setDiff (l xs : List String) : List String := l.filter (fun x => !xs.contains x)

/-- Insert into a string-valued Python dict (replace or append). -/
def dictInsert (d : List (String × String)) (k v : String) : List (String × String) :=
  if d.any (fun p => p.1 == k) then d.map (fun p => if p.1 == k then (k, v) else p)
  else d ++ [(k, v)]

/-- Lookup in a string-valued Python dict. -/
def dictGetS (d : List (String × String)) (k : String) : Option String :=
  (d.find? (fun p => p.1 == k)).map (·.2)

/-- `user_tags = {tag["name"].lower(): tag["id"] for tag in user["tags"]}`:
dict comprehension, later duplicates overwrite earlier ones. -/
def build_user_tags (tags : List HabiticaTag) : List (String × String) :=
  tags.foldl (fun d tag => dictInsert d (lowerStr tag.name) tag.id) []

/-- `user_tags.get(tag_name.lower()) or (await api.tags.post(name=tag_name)).get("id")`:
the resolved tag id together with whether a tag-creation request was made. -/
def tag_id_for (user_tags : List (String × String)) (create : String → String)
    (tag_name : String) : String × Bool :=
  match dictGetS user_tags (lowerStr tag_name) with
  | some id => if id = "" then (create tag_name, true) else (id, false)
  | none => (create tag_name, true)

/-- The `ServiceValidationError`s raised while building the payload. -/
inductive SvcError
  | validation (key : String)
deriving DecidableEq, Repr

/-- Lines 123-124: rename. -/
def step_rename (c : CallData) (d : Payload) : Payload :=
  match truthyStr c.rename with
  | some r => updateKey d "text" (.str r)
  | none => d

/-- Lines 126-127: description. -/
def step_description (c : CallData) (d : Payload) : Payload :=
  match truthyStr c.description with
  | some r => updateKey d "notes" (.str r)
  | none => d

/-- Lines 129-130: priority (mapped through `PRIORITIES`). -/
def step_priority (c : CallData) (d : Payload) : Payload :=
  match c.priority with
  | some p => updateKey d "priority" (.num (PRIORITIES p))
  | none => d

/-- Lines 132-133: due date. -/
def step_date (c : CallData) (d : Payload) : Payload :=
  match c.date with
  | some dd => updateKey d "date" (.str (isoNaiveMin (dd * 1440)))
  | none => d

/-- Lines 135-136: clear date. -/
def step_clear_date (c : CallData) (d : Payload) : Payload :=
  if c.clear_date then updateKey d "date" .null else d

/-- Lines 138-189: tag additions and removals. -/
def step_tags (ct : CurrentTask) (userTags : List HabiticaTag) (create : String → String)
    (c : CallData) (d : Payload) : Payload :=
  let tags := truthyList c.tag
  let remove_tags := truthyList c.remove_tag
  if tags.isSome ∨ remove_tags.isSome then
    let update_tags := setOfList ct.tags
    let user_tags := build_user_tags userTags
    let update_tags :=
      match tags with
      | some ts => setUnion update_tags (setOfList (ts.map fun n => (tag_id_for user_tags create n).1))
      | none => update_tags
    let update_tags :=
      match remove_tags with
      | some ts => setDiff update_tags (ts.filterMap fun (n : String) => dictGetS user_tags (lowerStr n))
      | none => update_tags
    updateKey d "tags" (.list (update_tags.map .str))
  else d

/-- Lines 191-192: alias. -/
def step_alias (c : CallData) (d : Payload) : Payload :=
  match truthyStr c.alias_ with
  | some a => updateKey d "alias" (.str a)
  | none => d

/-- Lines 194-195: cost. -/
def step_cost (c : CallData) (d : Payload) : Payload :=
  match truthyRat c.cost with
  | some q => updateKey d "value" (.num q)
  | none => d

/-- The generator of line 211-215: append the new items one by one, each
checking against the list as extended so far; `uuid.uuid4()` is modelled by
the supply `uuids`, consumed once per created item. -/
def addChecklistItems (uuids : Nat → String) (cl : List ChecklistItem)
    (items : List String) : List ChecklistItem :=
  (items.foldl
    (fun acc item =>
      if acc.1.any (fun ci => ci.text == item) then acc
      else (acc.1 ++ [{ completed := false, id := uuids acc.2, text := item }], acc.2 + 1))
    (cl, 0)).1

/-- Lines 197-237: checklist add/remove/score/unscore. -/
def step_checklist (uuids : Nat → String) (ct : CurrentTask) (c : CallData)
    (d : Payload) : Payload :=
  let add := truthyList c.add_checklist_item
  let rem := truthyList c.remove_checklist_item
  let scoreL := c.score_checklist_item.getD []
  let unscoreL := c.unscore_checklist_item.getD []
  if add.isSome ∨ rem.isSome ∨ !scoreL.isEmpty ∨ !unscoreL.isEmpty then
    let checklist := ct.checklist
    let checklist : List ChecklistItem :=
      match add with
      | some items => addChecklistItems uuids checklist items
      | none => checklist
    let checklist : List ChecklistItem :=
      match rem with
      | some items => checklist.filter (fun ci => !items.contains ci.text)
      | none => checklist
    let checklist :=
      if !scoreL.isEmpty ∨ !unscoreL.isEmpty then
        checklist.map fun ci =>
          { ci with
            completed :=
              if scoreL.contains ci.text then true
              else if unscoreL.contains ci.text then false
              else ci.completed }
      else checklist
    updateKey d "checklist" (.list (checklist.map checklistValue))
  else d

/-- Lines 239-240: frequency. -/
def step_frequency (c : CallData) (d : Payload) : Payload :=
  match truthyStr c.frequency with
  | some fr => updateKey d "frequency" (.str fr)
  | none => d

/-- Lines 241-242: interval. -/
def step_interval (c : CallData) (d : Payload) : Payload :=
  match truthyInt c.interval with
  | some n => updateKey d "everyX" (.num (n : ℚ))
  | none => d

/-- Lines 243-249: habit up/down. -/
def step_up_down (c : CallData) (d : Payload) : Payload :=
  match truthyList c.up_down with
  | some ud => updateKey (updateKey d "up" (.bool (ud.contains "positive"))) "down" (.bool (ud.contains "negative"))
  | none => d

/-- Lines 250-253: start date. -/
def step_start_date (c : CallData) (d : Payload) : Payload :=
  match c.start_date with
  | some sd => updateKey d "startDate" (.str (isoNaiveMin (sd * 1440)))
  | none => d

/-- Lines 255-262: weekly repeat days; raises unless the (new or current)
frequency is weekly. -/
def step_repeat (ct : CurrentTask) (c : CallData) (d : Payload) :
    Except SvcError Payload :=
  match truthyList c.rpt with
  | some rep =>
      if (truthyStr c.frequency).getD ct.frequency = "weekly" then
        .ok (updateKey d "repeat" (.dict (WEEK_DAYS.map fun day => (day, .bool (rep.contains day)))))
      else .error (.validation "frequency_not_weekly")
  | none => .ok d

/-- `date.weekday()`: Monday is 0; day 0 (1970-01-01) was a Thursday. -/
def pyWeekday (d : Int) : Int := (d + 3).emod 7

/-- The `data.update` of lines 279-291 for a given resolved start date. -/
def applyRepeatMonthly (rm : RepeatMonthly) (sd : Int) (d : Payload) : Payload :=
  match rm with
  | .day_of_week =>
      let wd := pyWeekday sd
      let dayOfMonth := (civilFromDays sd).2.2
      updateKey
        (updateKey
          (updateKey d "weeksOfMonth" (.num (((dayOfMonth - 1).fdiv 7 : Int) : ℚ)))
          "repeat" (.dict (WEEK_DAYS.enum.map fun p => (p.2, .bool ((p.1 : Int) = wd)))))
        "daysOfMonth" (.list [])
  | .day_of_month =>
      updateKey (updateKey d "daysOfMonth" (.num (((civilFromDays sd).2.2 : Int) : ℚ)))
        "weeksOfMonth" (.list [])

/-- Lines 263-291: monthly repeat mode; raises unless the (new or current)
frequency is monthly and a start date is resolvable. -/
def step_repeat_monthly (off : Int) (ct : CurrentTask) (c : CallData) (d : Payload) :
    Except SvcError Payload :=
  match c.repeat_monthly with
  | some rm =>
      if (truthyStr c.frequency).getD ct.frequency ≠ "monthly" then
        .error (.validation "frequency_not_monthly")
      else
        match c.start_date with
        | some sd => .ok (applyRepeatMonthly rm sd d)
        | none =>
            match to_date off ct.startDate with
            | some sd => .ok (applyRepeatMonthly rm sd d)
            | none => .error (.validation "frequency_not_monthly")
  | none => .ok d

/-- Lines 293-313: add reminders (naive datetimes). -/
def step_reminder (uuids : Nat → String) (ct : CurrentTask) (c : CallData)
    (d : Payload) : Payload :=
  match truthyList c.reminder with
  | some rs =>
      let existing := ct.reminders.map (fun r => r.time.civMin)
      let newVals :=
        ((rs.filter (fun r => !existing.contains r)).enum.map fun p =>
          Value.dict [("id", .str (uuids p.1)), ("time", .str (isoNaiveMin p.2))])
      updateKey d "reminders" (.list (newVals ++ ct.reminders.map reminderValue))
  | none => d

/-- Lines 314-339: add reminder times (combined with today's date, UTC). -/
def step_reminder_time (uuids : Nat → String) (todayD : Int) (ct : CurrentTask)
    (c : CallData) (d : Payload) : Payload :=
  match truthyList c.reminder_time with
  | some rts =>
      let existing := ct.reminders.map (fun r => r.time.civMin.emod 1440)
      let newVals :=
        ((rts.filter (fun r => !existing.contains r)).enum.map fun p =>
          Value.dict
            [("id", .str (uuids p.1)), ("startDate", .str ""),
              ("time", .str (isoNaiveMin (todayD * 1440 + p.2) ++ "+00:00"))])
      updateKey d "reminders" (.list (newVals ++ ct.reminders.map reminderValue))
  | none => d

/-- Lines 340-348: remove reminders by datetime. -/
def step_remove_reminder (ct : CurrentTask) (c : CallData) (d : Payload) : Payload :=
  match truthyList c.remove_reminder with
  | some rs =>
      updateKey d "reminders"
        (.list ((ct.reminders.filter (fun r => !rs.contains r.time.civMin)).map reminderValue))
  | none => d

/-- Lines 349-359: remove reminders by time of day. -/
def step_remove_reminder_time (ct : CurrentTask) (c : CallData) (d : Payload) : Payload :=
  match truthyList c.remove_reminder_time with
  | some rts =>
      updateKey d "reminders"
        (.list ((ct.reminders.filter (fun r => !rts.contains (r.time.civMin.emod 1440))).map reminderValue))
  | none => d

/-- Lines 361-362: clear reminders. -/
def step_clear_reminder (c : CallData) (d : Payload) : Payload :=
  if c.clear_reminder then updateKey d "reminders" (.list []) else d

/-- Lines 364-365: streak. -/
def step_streak (c : CallData) (d : Payload) : Payload :=
  match truthyInt c.streak with
  | some n => updateKey d "streak" (.num (n : ℚ))
  | none => d

/-- Lines 366-367: counter up. -/
def step_counter_up (c : CallData) (d : Payload) : Payload :=
  match truthyInt c.counter_up with
  | some n => updateKey d "counterUp" (.num (n : ℚ))
  | none => d

/-- Lines 368-369: counter down. -/
def step_counter_down (c : CallData) (d : Payload) : Payload :=
  match truthyInt c.counter_down with
  | some n => updateKey d "counterDown" (.num (n : ℚ))
  | none => d

/-- `services.update_task`, lines 121-369: the partial-update payload built
from the validated call data, the current task, the user's tags, a
tag-creation oracle `create` and a `uuid4` supply. -/
def update_task_data (uuids : Nat → String) (todayD : Int) (off : Int)
    (ct : CurrentTask) (userTags : List HabiticaTag) (create : String → String)
    (c : CallData) : Except SvcError Payload :=
  let d := step_rename c []
  let d := step_description c d
  let d := step_priority c d
  let d := step_date c d
  let d := step_clear_date c d
  let d := step_tags ct userTags create c d
  let d := step_alias c d
  let d := step_cost c d
  let d := step_checklist uuids ct c d
  let d := step_frequency c d
  let d := step_interval c d
  let d := step_up_down c d
  let d := step_start_date c d
  match step_repeat ct c d with
  | .error e => .error e
  | .ok d1 =>
      match step_repeat_monthly off ct c d1 with
      | .error e => .error e
      | .ok d2 =>
          let d := step_reminder uuids ct c d2
          let d := step_reminder_time uuids todayD ct c d
          let d := step_remove_reminder ct c d
          let d := step_remove_reminder_time ct c d
          let d := step_clear_reminder c d
          let d := step_streak c d
          let d := step_counter_up c d
          let d := step_counter_down c d
          .ok d

/-- A payload key is justified when the call explicitly carries a field that
can produce it. -/
def keyJustified (k : String) (c : CallData) : Prop :=
  (k = "text" ∧ c.rename ≠ none) ∨
  (k = "notes" ∧ c.description ≠ none) ∨
  (k = "priority" ∧ c.priority ≠ none) ∨
  (k = "date" ∧ (c.date ≠ none ∨ c.clear_date = true)) ∨
  (k = "tags" ∧ (c.tag ≠ none ∨ c.remove_tag ≠ none)) ∨
  (k = "alias" ∧ c.alias_ ≠ none) ∨
  (k = "value" ∧ c.cost ≠ none) ∨
  (k = "checklist" ∧
    (c.add_checklist_item ≠ none ∨ c.remove_checklist_item ≠ none ∨
      c.score_checklist_item ≠ none ∨ c.unscore_checklist_item ≠ none)) ∨
  (k = "frequency" ∧ c.frequency ≠ none) ∨
  (k = "everyX" ∧ c.interval ≠ none) ∨
  ((k = "up" ∨ k = "down") ∧ c.up_down ≠ none) ∨
  (k = "startDate" ∧ c.start_date ≠ none) ∨
  (k = "repeat" ∧ (c.rpt ≠ none ∨ c.repeat_monthly ≠ none)) ∨
  ((k = "weeksOfMonth" ∨ k = "daysOfMonth") ∧ c.repeat_monthly ≠ none) ∨
  (k = "reminders" ∧
    (c.reminder ≠ none ∨ c.reminder_time ≠ none ∨ c.remove_reminder ≠ none ∨
      c.remove_reminder_time ≠ none ∨ c.clear_reminder = true)) ∨
  (k = "streak" ∧ c.streak ≠ none) ∨
  (k = "counterUp" ∧ c.counter_up ≠ none) ∨
  (k = "counterDown" ∧ c.counter_down ≠ none)

/-! ## Service layer: error classification -/

/-- The user-facing errors of the integration:
`ServiceValidationError` with a translation key and placeholders, or a
generic `HomeAssistantError`. -/
inductive HaError
  | validation (key : String) (placeholders : List (String × String))
  | generic (key : String)
deriving DecidableEq, Repr

/-- `services.update_task`, lines 370-381: the error raised when the
`tasks[task_id].put` call fails with the given HTTP status. -/
def update_task_put_error (status : Nat) : HaError :=
  if status = 429 then .validation "setup_rate_limit_exception" []
  else .generic "service_call_exception"

/-- The `skill` dict of `cast_skill` (lines 167-172): spell id and cost per
skill name. -/
def skill_map : List (String × String × String) :=
  [("pickpocket", ("pickPocket", "10 MP")), ("backstab", ("backStab", "15 MP")),
    ("smash", ("smash", "10 MP")), ("fireball", ("fireball", "10 MP"))]

/-- `cast_skill`, lines 176-207: the error raised when the cast request
fails with the given HTTP status; `mp` is the user's current mana.
Unknown skill names raise `KeyError` before any request is made. -/
def cast_skill_error (skillName : String) (mp : Int) (status : Nat) :
    Except PyExc HaError :=
  match dictGet skill_map skillName with
  | none => .error .keyError
  | some sk =>
      .ok
        (if status = 429 then .validation "setup_rate_limit_exception" []
        else if status = 401 then
          .validation "not_enough_mana" [("cost", sk.2), ("mana", toString mp ++ " MP")]
        else if status = 404 then .validation "skill_not_found" [("skill", skillName)]
        else .generic "service_call_exception")

/-! ## Concrete records used by the claim instances -/

/-- All-false repeat flags. -/
def noRepeat : RepeatFlags :=
  { m := false, t := false, w := false, th := false, f := false, s := false, su := false }

/-- The weekly task of the round-trip claim: `su`, `t`, `th`, `s` active. -/
def weeklyTask : Task where
  everyX := 1
  startDate := "2024-10-14T00:00:00"
  frequency := "weekly"
  daysOfMonth := []
  weeksOfMonth := []
  rpt := { m := false, t := true, w := false, th := true, f := false, s := true, su := true }
  isDue := false
  completed := false
  nextDue := []

/-- A current task with no tags, checklist or reminders. -/
def plainCurrentTask : CurrentTask where
  id := "564b9ac9-c53d-4638-9e7f-1cd96fe19baa"
  frequency := "daily"
  startDate := "2024-10-14T00:00:00"
  tags := []
  checklist := []
  reminders := []

/-! ## Claims about `next_due_date` and `to_date` -/

/-- Claim C1: a task with `everyX == 0` or an empty `nextDue` list has no
due date, regardless of all other fields. -/
theorem next_due_date_grey (off : Int) (task : Task) (lc : String)
    (h : task.everyX = 0 ∨ task.nextDue = []) :
    next_due_date off task lc = .ok none := by
  unfold next_due_date
  rcases hl : task.nextDue with _ | ⟨nd0, rest⟩
  · rfl
  · rcases h with h | h
    · simp [h]
    · rw [hl] at h; cases h

/-- Witness for `next_due_date_grey`. -/
theorem next_due_date_grey_witness :
    next_due_date 0
      { everyX := 0, startDate := "2024-05-06", frequency := "daily", daysOfMonth := [],
        weeksOfMonth := [], rpt := noRepeat, isDue := true, completed := false,
        nextDue := ["2024-05-07"] } "2024-05-06" = .ok none :=
  next_due_date_grey 0 _ "2024-05-06" (Or.inl rfl)

/-- Counterexample to claim C2 as stated: a task with `isDue` true and
`completed` false but `everyX == 0` returns no date, not the parsed
last-reset date. -/
theorem next_due_date_isDue_counterexample :
    next_due_date 0
        { everyX := 0, startDate := "2024-05-06T00:00:00+02:00", frequency := "daily",
          daysOfMonth := [], weeksOfMonth := [], rpt := noRepeat, isDue := true,
          completed := false, nextDue := ["2024-05-06T00:00:00+02:00"] }
        "2024-05-06T00:00:00+02:00" = .ok none ∧
      to_date 0 "2024-05-06T00:00:00+02:00" = some 19848 ∧
      (Except.ok (to_date 0 "2024-05-06T00:00:00+02:00") : Except PyExc (Option Int)) ≠
        .ok none := by
  refine ⟨rfl, by decide, by decide⟩

/-- Claim C2 (amended): provided `everyX ≠ 0` and `nextDue` is nonempty, a
task with `isDue` true and `completed` false gets the date parsed from the
last-reset timestamp. -/
theorem next_due_date_isDue (off : Int) (task : Task) (lc : String)
    (hx : task.everyX ≠ 0) (hnd : task.nextDue ≠ [])
    (hdue : task.isDue = true) (hcomp : task.completed = false) :
    next_due_date off task lc = .ok (to_date off lc) := by
  unfold next_due_date
  rcases hl : task.nextDue with _ | ⟨nd0, rest⟩
  · exact absurd hl hnd
  · simp [hx, hdue, hcomp]

/-- Witness for `next_due_date_isDue`. -/
theorem next_due_date_isDue_witness :
    next_due_date 0
      { everyX := 1, startDate := "2024-05-06", frequency := "daily", daysOfMonth := [],
        weeksOfMonth := [], rpt := noRepeat, isDue := true, completed := false,
        nextDue := ["2024-05-07"] } "2024-05-06" = .ok (to_date 0 "2024-05-06") :=
  next_due_date_isDue 0 _ "2024-05-06" (by decide) (by decide) rfl rfl

/-- Claim C3: for a not-yet-started task (start date strictly after the
last-reset date) that passed the earlier guards: a daily task, or a
monthly/yearly one with explicit days of month, is due on its start date;
otherwise a weekly/monthly task whose first `nextDue` entry predates the
start date is due on the second `nextDue` entry. -/
theorem next_due_date_future_start (off : Int) (task : Task) (lc : String) (sd td : Int)
    (hx : task.everyX ≠ 0) (hnd : task.nextDue ≠ [])
    (hdc : task.isDue = false ∨ task.completed = true)
    (hsd : to_date off task.startDate = some sd)
    (htd : to_date off lc = some td)
    (hgt : td < sd) :
    ((task.frequency = "daily" ∨
        ((task.frequency = "monthly" ∨ task.frequency = "yearly") ∧ task.daysOfMonth ≠ [])) →
      next_due_date off task lc = .ok (some sd)) ∧
    (∀ nd0 nd1 rest, task.nextDue = nd0 :: nd1 :: rest →
      ¬(task.frequency = "daily" ∨
          ((task.frequency = "monthly" ∨ task.frequency = "yearly") ∧ task.daysOfMonth ≠ [])) →
      (task.frequency = "weekly" ∨ task.frequency = "monthly") →
      ∀ nd, to_date off nd0 = some nd → nd < sd →
        next_due_date off task lc = .ok (to_date off nd1)) := by
  have hdue : (task.isDue && !task.completed) = false := by
    rcases hdc with h | h <;> simp [h]
  constructor
  · intro hfreq
    unfold next_due_date
    rcases hl : task.nextDue with _ | ⟨nd0, rest⟩
    · exact absurd hl hnd
    · simp [hx, hdue, hsd, htd, hgt, hfreq]
  · intro nd0 nd1 rest hl hnfreq hwk nd hnd0 hlt
    unfold next_due_date
    rw [hl]
    simp [hx, hdue, hsd, htd, hgt, hnfreq, hwk, hnd0, hlt]

/-- Witness for `next_due_date_future_start`. -/
theorem next_due_date_future_start_witness :
    next_due_date 0
      { everyX := 1, startDate := "2024-06-01", frequency := "daily", daysOfMonth := [],
        weeksOfMonth := [], rpt := noRepeat, isDue := false, completed := false,
        nextDue := ["2024-06-01"] } "2024-05-06" = .ok (some 19875) :=
  (next_due_date_future_start 0 _ "2024-05-06" 19875 19849 (by decide) (by decide)
      (Or.inl rfl) (by decide) (by decide) (by decide)).1 (Or.inl rfl)

/-- Counterexample to claim C4 as stated: with a malformed `startDate` (and
the task neither grey nor due-and-incomplete), `next_due_date` raises
`TypeError` at the `startdate > today` comparison instead of degrading to
an absent date. -/
theorem next_due_date_crash_counterexample :
    next_due_date 0
      { everyX := 1, startDate := "not a date", frequency := "daily", daysOfMonth := [],
        weeksOfMonth := [], rpt := noRepeat, isDue := false, completed := false,
        nextDue := ["2024-05-07"] } "2024-05-06" = .error .typeError := by decide

/-- Claim C4 (amended): `next_due_date` raises no exception provided the
last-reset timestamp and the start date both parse and `nextDue` is either
empty or has at least two entries. -/
theorem next_due_date_no_raise (off : Int) (task : Task) (lc : String)
    (htd : (to_date off lc).isSome) (hsd : (to_date off task.startDate).isSome)
    (hlen : task.nextDue = [] ∨ 2 ≤ task.nextDue.length) :
    ∃ r, next_due_date off task lc = .ok r := by
  rcases hl : task.nextDue with _ | ⟨nd0, rest⟩
  · exact ⟨none, by unfold next_due_date; rw [hl]⟩
  · rcases hlen with h | h
    · rw [hl] at h; cases h
    · rw [hl] at h
      rcases rest with _ | ⟨nd1, rest'⟩
      · simp at h
      · obtain ⟨td, htd'⟩ := Option.isSome_iff_exists.mp htd
        obtain ⟨sd, hsd'⟩ := Option.isSome_iff_exists.mp hsd
        unfold next_due_date
        rw [hl]
        by_cases h0 : task.everyX = 0
        · exact ⟨none, by simp [h0]⟩
        · by_cases hdue : (task.isDue && !task.completed) = true
          · exact ⟨to_date off lc, by simp [h0, hdue]⟩
          · simp only [h0, hdue, if_false, hsd', htd', Bool.not_eq_true] at *
            by_cases hcmp : sd > td
            · by_cases hfreq : task.frequency = "daily" ∨
                  ((task.frequency = "monthly" ∨ task.frequency = "yearly") ∧
                    task.daysOfMonth ≠ [])
              · exact ⟨some sd, by simp [h0, hdue, hsd', htd', hcmp, hfreq]⟩
              · by_cases hwk : task.frequency = "weekly" ∨ task.frequency = "monthly"
                · rcases hnd0 : to_date off nd0 with _ | nd
                  · exact ⟨to_date off nd0,
                      by simp [h0, hdue, hsd', htd', hcmp, hfreq, hwk, hnd0]⟩
                  · by_cases hlt : sd > nd
                    · exact ⟨to_date off nd1,
                        by simp [h0, hdue, hsd', htd', hcmp, hfreq, hwk, hnd0, hlt]⟩
                    · exact ⟨to_date off nd0,
                        by simp [h0, hdue, hsd', htd', hcmp, hfreq, hwk, hnd0, hlt]⟩
                · exact ⟨to_date off nd0,
                    by simp [h0, hdue, hsd', htd', hcmp, hfreq, hwk]⟩
            · exact ⟨to_date off nd0, by simp [h0, hdue, hsd', htd', hcmp]⟩

/-- Witness for `next_due_date_no_raise`. -/
theorem next_due_date_no_raise_witness :
    ∃ r, next_due_date 0
      { everyX := 1, startDate := "2024-05-01", frequency := "daily", daysOfMonth := [],
        weeksOfMonth := [], rpt := noRepeat, isDue := false, completed := false,
        nextDue := ["2024-05-07", "2024-05-08"] } "2024-05-06" = .ok r :=
  next_due_date_no_raise 0 _ "2024-05-06" (by decide) (by decide) (Or.inr (by decide))

/-- Claim C5: `to_date` tries ISO-8601 first, falls back to the legacy
JavaScript format, and yields `none` when both fail; the legacy string
`"Mon May 06 2024 00:00:00 GMT+0200"` is rejected by the ISO parser,
accepted by the fallback, and denotes the same instant (hence the same
local calendar date) as the ISO string `"2024-05-06T00:00:00+02:00"`. -/
theorem to_date_iso_first (off : Int) :
    (∀ s dt, fromisoformat s = some dt → to_date off s = some (as_local_date off dt)) ∧
    (∀ s dt, fromisoformat s = none → strptime_js s = some dt →
      to_date off s = some (as_local_date off dt)) ∧
    (∀ s, fromisoformat s = none → strptime_js s = none → to_date off s = none) ∧
    fromisoformat "Mon May 06 2024 00:00:00 GMT+0200" = none ∧
    strptime_js "Mon May 06 2024 00:00:00 GMT+0200" = some { civMin := 28582560, tz := some 120 } ∧
    fromisoformat "2024-05-06T00:00:00+02:00" = some { civMin := 28582560, tz := some 120 } ∧
    to_date off "Mon May 06 2024 00:00:00 GMT+0200" = to_date off "2024-05-06T00:00:00+02:00" ∧
    (to_date off "Mon May 06 2024 00:00:00 GMT+0200").isSome = true := by
  have h1 : fromisoformat "Mon May 06 2024 00:00:00 GMT+0200" = none := by decide
  have h2 : strptime_js "Mon May 06 2024 00:00:00 GMT+0200" =
      some { civMin := 28582560, tz := some 120 } := by decide
  have h3 : fromisoformat "2024-05-06T00:00:00+02:00" =
      some { civMin := 28582560, tz := some 120 } := by decide
  refine ⟨?_, ?_, ?_, h1, h2, h3, ?_, ?_⟩
  · intro s dt h; unfold to_date; rw [h]
  · intro s dt hi hj; unfold to_date; rw [hi, hj]
  · intro s hi hj; unfold to_date; rw [hi, hj]
  · unfold to_date; rw [h1, h2, h3]
  · unfold to_date; rw [h1, h2]; rfl

/-- Witness for `to_date_iso_first`. -/
theorem to_date_iso_first_witness :
    to_date 0 "Mon May 06 2024 00:00:00 GMT+0200" = to_date 0 "2024-05-06T00:00:00+02:00" :=
  (to_date_iso_first 0).2.2.2.2.2.2.1

/-! ## Claim about `build_rrule` -/

/-- Claim C6: a weekly rule with interval 1 built from repeat flags
`su`, `t`, `th`, `s` has exactly the weekday set `{SU, TU, TH, SA}`. -/
theorem build_rrule_weekday_roundtrip :
    (build_rrule 0 weeklyTask).map RRule.byweekday =
        some (some [RWeekday.TU, RWeekday.TH, RWeekday.SA, RWeekday.SU]) ∧
      (build_rrule 0 weeklyTask).map RRule.interval = some 1 ∧
      (build_rrule 0 weeklyTask).map RRule.freq = some RFreq.WEEKLY ∧
      ∀ w : RWeekday,
        w ∈ [RWeekday.TU, RWeekday.TH, RWeekday.SA, RWeekday.SU] ↔
          (w = .SU ∨ w = .TU ∨ w = .TH ∨ w = .SA) := by
  refine ⟨by decide, by decide, by decide, ?_⟩
  intro w
  cases w <;> decide

/-! ## Claim about error classification -/

/-- Claim C9: a failed task update raises the rate-limit validation error
exactly for HTTP 429 and the generic error for every other status, and a
failed skill cast raises the insufficient-mana validation error carrying
the skill's cost exactly for HTTP 401. -/
theorem service_error_classification :
    (∀ status, update_task_put_error status = .validation "setup_rate_limit_exception" [] ↔
      status = 429) ∧
    (∀ status, status ≠ 429 → update_task_put_error status = .generic "service_call_exception") ∧
    (∀ skillName spell cost mp status, dictGet skill_map skillName = some (spell, cost) →
      (cast_skill_error skillName mp status =
          .ok (.validation "not_enough_mana" [("cost", cost), ("mana", toString mp ++ " MP")]) ↔
        status = 401)) := by
  refine ⟨?_, ?_, ?_⟩
  · intro status
    unfold update_task_put_error
    constructor
    · intro h
      by_contra hne
      rw [if_neg hne] at h
      cases h
    · intro h; rw [if_pos h]
  · intro status h
    unfold update_task_put_error
    rw [if_neg h]
  · intro skillName spell cost mp status hsk
    unfold cast_skill_error
    rw [hsk]
    dsimp only
    constructor
    · intro h
      by_cases h429 : status = 429
      · rw [if_pos h429] at h; simp at h
      · rw [if_neg h429] at h
        by_cases h401 : status = 401
        · exact h401
        · rw [if_neg h401] at h
          by_cases h404 : status = 404
          · rw [if_pos h404] at h; simp at h
          · rw [if_neg h404] at h; simp at h
    · intro h
      subst h
      rfl

/-- Witness for `service_error_classification`. -/
theorem service_error_classification_witness :
    update_task_put_error 500 = .generic "service_call_exception" ∧
      cast_skill_error "pickpocket" 5 401 =
        .ok (.validation "not_enough_mana" [("cost", "10 MP"), ("mana", "5 MP")]) :=
  ⟨service_error_classification.2.1 500 (by decide),
    (service_error_classification.2.2 "pickpocket" "pickPocket" "10 MP" 5 401 rfl).mpr rfl⟩

/-! ## Tag-resolution lemmas -/

theorem dictGetS_dictInsert_self (d : List (String × String)) (k v : String) :
    dictGetS (dictInsert d k v) k = some v := by
  unfold dictGetS dictInsert
  by_cases hany : d.any (fun p => p.1 == k)
  · rw [if_pos hany, List.find?_map]
    have hpred : ((fun p : String × String => p.1 == k) ∘
        (fun p : String × String => if p.1 == k then (k, v) else p)) =
        (fun p : String × String => p.1 == k) := by
      funext p
      by_cases h : (p.1 == k) = true
      · simp [Function.comp, h]
      · simp [Function.comp, h]
    rw [hpred]
    obtain ⟨x, hx, hpx⟩ := List.any_eq_true.mp hany
    have hfs : (d.find? (fun p => p.1 == k)).isSome := List.find?_isSome.mpr ⟨x, hx, hpx⟩
    obtain ⟨q, hq⟩ := Option.isSome_iff_exists.mp hfs
    rw [hq]
    have hqk := List.find?_some hq
    have hq1 : q.1 = k := by simpa using hqk
    simp [hq1]
  · rw [if_neg hany, List.find?_append]
    have hnone : d.find? (fun p => p.1 == k) = none := by
      rw [List.find?_eq_none]
      intro x hx hpx
      exact hany (List.any_eq_true.mpr ⟨x, hx, hpx⟩)
    rw [hnone]
    simp

theorem dictGetS_dictInsert_ne (d : List (String × String)) (k v k' : String)
    (hne : k' ≠ k) : dictGetS (dictInsert d k v) k' = dictGetS d k' := by
  unfold dictGetS dictInsert
  by_cases hany : d.any (fun p => p.1 == k)
  · rw [if_pos hany, List.find?_map]
    have hpred : ((fun p : String × String => p.1 == k') ∘
        (fun p : String × String => if p.1 == k then (k, v) else p)) =
        (fun p : String × String => p.1 == k') := by
      funext p
      by_cases h : (p.1 == k) = true
      · have h1 : p.1 = k := by simpa using h
        have h2 : (k == k') = false := by simp [Ne.symm hne]
        have h3 : (p.1 == k') = false := by simp [h1, Ne.symm hne]
        simp [Function.comp, h, h2, h3]
      · simp [Function.comp, h]
    rw [hpred]
    cases hq : d.find? (fun p => p.1 == k') with
    | none => simp
    | some q =>
        have hqk := List.find?_some hq
        have hq1 : q.1 = k' := by simpa using hqk
        have hqknot : q.1 ≠ k := by rw [hq1]; exact hne
        simp [hqknot]
  · rw [if_neg hany, List.find?_append]
    have h2 : [(k, v)].find? (fun p => p.1 == k') = none := by
      have hkk : (k == k') = false := beq_eq_false_iff_ne.mpr (Ne.symm hne)
      simp [List.find?, hkk]
    rw [h2]
    cases d.find? (fun p => p.1 == k') <;> rfl

/-- One step of `build_user_tags`. -/
def insTag (d : List (String × String)) (t : HabiticaTag) : List (String × String) :=
  dictInsert d (lowerStr t.name) t.id

theorem build_user_tags_eq_foldl (uts : List HabiticaTag) :
    build_user_tags uts = uts.foldl insTag [] := rfl

theorem foldl_insTag_some (uts : List HabiticaTag) :
    ∀ (acc : List (String × String)) (k id : String),
      dictGetS (uts.foldl insTag acc) k = some id →
      (∃ t ∈ uts, lowerStr t.name = k ∧ t.id = id) ∨ dictGetS acc k = some id := by
  induction uts with
  | nil => intro acc k id h; exact Or.inr h
  | cons t ts ih =>
      intro acc k id h
      rcases ih (insTag acc t) k id h with h' | h'
      · obtain ⟨u, hu, h1, h2⟩ := h'
        exact Or.inl ⟨u, List.mem_cons_of_mem t hu, h1, h2⟩
      · by_cases hk : k = lowerStr t.name
        · subst hk
          rw [insTag, dictGetS_dictInsert_self] at h'
          exact Or.inl ⟨t, List.mem_cons_self t ts, rfl, Option.some_inj.mp h'⟩
        · rw [insTag, dictGetS_dictInsert_ne _ _ _ _ hk] at h'
          exact Or.inr h'

theorem foldl_insTag_isSome_mono (uts : List HabiticaTag) :
    ∀ (acc : List (String × String)) (k : String),
      (dictGetS acc k).isSome → (dictGetS (uts.foldl insTag acc) k).isSome := by
  induction uts with
  | nil => intro acc k h; exact h
  | cons t ts ih =>
      intro acc k h
      refine ih (insTag acc t) k ?_
      by_cases hk : k = lowerStr t.name
      · subst hk; rw [insTag, dictGetS_dictInsert_self]; rfl
      · rw [insTag, dictGetS_dictInsert_ne _ _ _ _ hk]; exact h

theorem foldl_insTag_isSome (uts : List HabiticaTag) :
    ∀ (acc : List (String × String)) (k : String),
      (∃ t ∈ uts, lowerStr t.name = k) →
      (dictGetS (uts.foldl insTag acc) k).isSome := by
  induction uts with
  | nil => intro acc k h; obtain ⟨t, ht, _⟩ := h; cases ht
  | cons t ts ih =>
      intro acc k h
      obtain ⟨u, hu, hname⟩ := h
      rcases List.mem_cons.mp hu with rfl | hu'
      · subst hname
        refine foldl_insTag_isSome_mono ts (insTag acc u) (lowerStr u.name) ?_
        rw [insTag, dictGetS_dictInsert_self]; rfl
      · exact ih (insTag acc t) k ⟨u, hu', hname⟩

theorem foldl_insTag_none (uts : List HabiticaTag) :
    ∀ (acc : List (String × String)) (k : String),
      (∀ t ∈ uts, lowerStr t.name ≠ k) →
      dictGetS (uts.foldl insTag acc) k = dictGetS acc k := by
  induction uts with
  | nil => intro acc k _; rfl
  | cons t ts ih =>
      intro acc k h
      rw [List.foldl_cons, ih (insTag acc t) k (fun u hu => h u (List.mem_cons_of_mem t hu)),
        insTag, dictGetS_dictInsert_ne]
      exact fun hk => h t (List.mem_cons_self t ts) hk.symm

/-- Core of the tag-reuse claims: when some user tag matches the requested
name case-insensitively (and tag ids are nonempty), the resolution reuses an
existing id and performs no creation. -/
theorem tag_reuse_core (uts : List HabiticaTag) (create : String → String) (n : String)
    (hids : ∀ t ∈ uts, t.id ≠ "")
    (hex : ∃ t ∈ uts, lowerStr t.name = lowerStr n) :
    (tag_id_for (build_user_tags uts) create n).2 = false ∧
      ∃ t ∈ uts, lowerStr t.name = lowerStr n ∧
        (tag_id_for (build_user_tags uts) create n).1 = t.id := by
  have hs : (dictGetS (build_user_tags uts) (lowerStr n)).isSome := by
    rw [build_user_tags_eq_foldl]
    exact foldl_insTag_isSome uts [] (lowerStr n) hex
  obtain ⟨id, hid⟩ := Option.isSome_iff_exists.mp hs
  have horig := foldl_insTag_some uts [] (lowerStr n) id
    (by rw [build_user_tags_eq_foldl] at hid; exact hid)
  rcases horig with ⟨t, ht, hname, hidt⟩ | habs
  · have hne : id ≠ "" := by rw [← hidt]; exact hids t ht
    unfold tag_id_for
    rw [hid]
    dsimp only
    rw [if_neg hne]
    exact ⟨rfl, t, ht, hname, hidt.symm⟩
  · simp [dictGetS] at habs

/-- Claim C8: a requested tag name already present in the user's tag set
(case-insensitively) is resolved to an existing tag's identifier without any
tag-creation request, while a name matching no user tag triggers a creation
request whose identifier is used. -/
theorem update_tag_reuse_or_create (uts : List HabiticaTag) (create : String → String)
    (n : String) (hids : ∀ t ∈ uts, t.id ≠ "") :
    ((∃ t ∈ uts, lowerStr t.name = lowerStr n) →
      (tag_id_for (build_user_tags uts) create n).2 = false ∧
        ∃ t ∈ uts, lowerStr t.name = lowerStr n ∧
          (tag_id_for (build_user_tags uts) create n).1 = t.id) ∧
    ((∀ t ∈ uts, lowerStr t.name ≠ lowerStr n) →
      (tag_id_for (build_user_tags uts) create n).2 = true ∧
        (tag_id_for (build_user_tags uts) create n).1 = create n) := by
  constructor
  · exact tag_reuse_core uts create n hids
  · intro hall
    have hnone : dictGetS (build_user_tags uts) (lowerStr n) = none := by
      rw [build_user_tags_eq_foldl, foldl_insTag_none uts [] (lowerStr n) hall]
      rfl
    unfold tag_id_for
    rw [hnone]
    exact ⟨rfl, rfl⟩

/-- Witness for `update_tag_reuse_or_create`. -/
theorem update_tag_reuse_or_create_witness :
    (tag_id_for (build_user_tags [{ id := "id1", name := "Home" }])
        (fun nm => "new-" ++ nm) "Garden").2 = true ∧
      (tag_id_for (build_user_tags [{ id := "id1", name := "Home" }])
        (fun nm => "new-" ++ nm) "Garden").1 = "new-Garden" :=
  (update_tag_reuse_or_create [{ id := "id1", name := "Home" }] (fun nm => "new-" ++ nm)
      "Garden" (by decide)).2 (by decide)

/-- Claim C10: tag-name resolution is case-insensitive: a requested name
equal to an existing tag's name up to letter case reuses that tag set's
identifier and never triggers creation of a new tag. -/
theorem update_tag_case_insensitive (uts : List HabiticaTag) (create : String → String)
    (n : String) (t : HabiticaTag) (ht : t ∈ uts)
    (hids : ∀ u ∈ uts, u.id ≠ "")
    (hcase : lowerStr t.name = lowerStr n) :
    (tag_id_for (build_user_tags uts) create n).2 = false ∧
      ∃ u ∈ uts, lowerStr u.name = lowerStr n ∧
        (tag_id_for (build_user_tags uts) create n).1 = u.id :=
  tag_reuse_core uts create n hids ⟨t, ht, hcase⟩

/-- Witness for `update_tag_case_insensitive`. -/
theorem update_tag_case_insensitive_witness :
    (tag_id_for (build_user_tags [{ id := "id1", name := "Home" }])
        (fun nm => "new-" ++ nm) "HOME").2 = false ∧
      ∃ u ∈ [({ id := "id1", name := "Home" } : HabiticaTag)],
        lowerStr u.name = lowerStr "HOME" ∧
          (tag_id_for (build_user_tags [{ id := "id1", name := "Home" }])
            (fun nm => "new-" ++ nm) "HOME").1 = u.id :=
  update_tag_case_insensitive [{ id := "id1", name := "Home" }] (fun nm => "new-" ++ nm)
    "HOME" { id := "id1", name := "Home" } (List.mem_singleton.mpr rfl) (by decide) (by decide)

/-! ## Payload-key provenance lemmas -/

theorem truthyStr_ne_none {o : Option String} {r : String}
    (h : truthyStr o = some r) : o ≠ none := by
  cases o
  · simp [truthyStr] at h
  · simp

theorem truthyList_ne_none {α : Type} {o : Option (List α)} {r : List α}
    (h : truthyList o = some r) : o ≠ none := by
  cases o
  · simp [truthyList] at h
  · simp

theorem truthyList_isSome_ne_none {α : Type} {o : Option (List α)}
    (h : (truthyList o).isSome = true) : o ≠ none := by
  cases o
  · simp [truthyList] at h
  · simp

theorem truthyInt_ne_none {o : Option Int} {r : Int}
    (h : truthyInt o = some r) : o ≠ none := by
  cases o
  · simp [truthyInt] at h
  · simp

theorem truthyRat_ne_none {o : Option ℚ} {r : ℚ}
    (h : truthyRat o = some r) : o ≠ none := by
  cases o
  · simp [truthyRat] at h
  · simp

theorem getD_nonempty_ne_none {o : Option (List String)}
    (h : (o.getD []).isEmpty = false) : o ≠ none := by
  cases o
  · simp [Option.getD] at h
  · simp

theorem mem_keysOf_updateKey {d : Payload} {k' k : String} {v : Value}
    (h : k ∈ keysOf (updateKey d k' v)) : k = k' ∨ k ∈ keysOf d := by
  unfold updateKey at h
  by_cases hany : (d.any fun p => p.1 == k') = true
  · rw [if_pos hany] at h
    unfold keysOf at h ⊢
    rw [List.map_map] at h
    rcases List.mem_map.mp h with ⟨p, hp, hk⟩
    simp only [Function.comp] at hk
    by_cases he : (p.1 == k') = true
    · rw [if_pos he] at hk
      exact Or.inl hk.symm
    · rw [if_neg he] at hk
      exact Or.inr (List.mem_map.mpr ⟨p, hp, hk⟩)
  · rw [if_neg hany] at h
    unfold keysOf at h ⊢
    rw [List.map_append] at h
    rcases List.mem_append.mp h with h1 | h2
    · exact Or.inr h1
    · simp at h2
      exact Or.inl h2

theorem keys_step_rename {c : CallData} {d : Payload} {k : String}
    (h : k ∈ keysOf (step_rename c d)) :
    (k = "text" ∧ c.rename ≠ none) ∨ k ∈ keysOf d := by
  unfold step_rename at h
  split at h
  next r hr =>
    rcases mem_keysOf_updateKey h with h' | h'
    · exact Or.inl ⟨h', truthyStr_ne_none hr⟩
    · exact Or.inr h'
  next => exact Or.inr h

theorem keys_step_description {c : CallData} {d : Payload} {k : String}
    (h : k ∈ keysOf (step_description c d)) :
    (k = "notes" ∧ c.description ≠ none) ∨ k ∈ keysOf d := by
  unfold step_description at h
  split at h
  next r hr =>
    rcases mem_keysOf_updateKey h with h' | h'
    · exact Or.inl ⟨h', truthyStr_ne_none hr⟩
    · exact Or.inr h'
  next => exact Or.inr h

theorem keys_step_priority {c : CallData} {d : Payload} {k : String}
    (h : k ∈ keysOf (step_priority c d)) :
    (k = "priority" ∧ c.priority ≠ none) ∨ k ∈ keysOf d := by
  unfold step_priority at h
  split at h
  next p hp =>
    rcases mem_keysOf_updateKey h with h' | h'
    · exact Or.inl ⟨h', by simp [hp]⟩
    · exact Or.inr h'
  next => exact Or.inr h

theorem keys_step_date {c : CallData} {d : Payload} {k : String}
    (h : k ∈ keysOf (step_date c d)) :
    (k = "date" ∧ c.date ≠ none) ∨ k ∈ keysOf d := by
  unfold step_date at h
  split at h
  next dd hdd =>
    rcases mem_keysOf_updateKey h with h' | h'
    · exact Or.inl ⟨h', by simp [hdd]⟩
    · exact Or.inr h'
  next => exact Or.inr h

theorem keys_step_clear_date {c : CallData} {d : Payload} {k : String}
    (h : k ∈ keysOf (step_clear_date c d)) :
    (k = "date" ∧ c.clear_date = true) ∨ k ∈ keysOf d := by
  unfold step_clear_date at h
  split at h
  next hcd =>
    rcases mem_keysOf_updateKey h with h' | h'
    · exact Or.inl ⟨h', hcd⟩
    · exact Or.inr h'
  next => exact Or.inr h

theorem keys_step_tags {ct : CurrentTask} {uts : List HabiticaTag}
    {create : String → String} {c : CallData} {d : Payload} {k : String}
    (h : k ∈ keysOf (step_tags ct uts create c d)) :
    (k = "tags" ∧ (c.tag ≠ none ∨ c.remove_tag ≠ none)) ∨ k ∈ keysOf d := by
  unfold step_tags at h
  simp only [] at h
  split at h
  next hcond =>
    rcases mem_keysOf_updateKey h with h' | h'
    · refine Or.inl ⟨h', ?_⟩
      rcases hcond with hs | hs
      · exact Or.inl (truthyList_isSome_ne_none hs)
      · exact Or.inr (truthyList_isSome_ne_none hs)
    · exact Or.inr h'
  next => exact Or.inr h

theorem keys_step_alias {c : CallData} {d : Payload} {k : String}
    (h : k ∈ keysOf (step_alias c d)) :
    (k = "alias" ∧ c.alias_ ≠ none) ∨ k ∈ keysOf d := by
  unfold step_alias at h
  split at h
  next a ha =>
    rcases mem_keysOf_updateKey h with h' | h'
    · exact Or.inl ⟨h', truthyStr_ne_none ha⟩
    · exact Or.inr h'
  next => exact Or.inr h

theorem keys_step_cost {c : CallData} {d : Payload} {k : String}
    (h : k ∈ keysOf (step_cost c d)) :
    (k = "value" ∧ c.cost ≠ none) ∨ k ∈ keysOf d := by
  unfold step_cost at h
  split at h
  next q hq =>
    rcases mem_keysOf_updateKey h with h' | h'
    · exact Or.inl ⟨h', truthyRat_ne_none hq⟩
    · exact Or.inr h'
  next => exact Or.inr h

theorem keys_step_checklist {uuids : Nat → String} {ct : CurrentTask} {c : CallData}
    {d : Payload} {k : String}
    (h : k ∈ keysOf (step_checklist uuids ct c d)) :
    (k = "checklist" ∧
        (c.add_checklist_item ≠ none ∨ c.remove_checklist_item ≠ none ∨
          c.score_checklist_item ≠ none ∨ c.unscore_checklist_item ≠ none)) ∨
      k ∈ keysOf d := by
  unfold step_checklist at h
  simp only [] at h
  split at h
  next hcond =>
    rcases mem_keysOf_updateKey h with h' | h'
    · refine Or.inl ⟨h', ?_⟩
      rcases hcond with hs | hs | hs | hs
      · exact Or.inl (truthyList_isSome_ne_none hs)
      · exact Or.inr (Or.inl (truthyList_isSome_ne_none hs))
      · exact Or.inr (Or.inr (Or.inl (getD_nonempty_ne_none (by simpa using hs))))
      · exact Or.inr (Or.inr (Or.inr (getD_nonempty_ne_none (by simpa using hs))))
    · exact Or.inr h'
  next => exact Or.inr h

theorem keys_step_frequency {c : CallData} {d : Payload} {k : String}
    (h : k ∈ keysOf (step_frequency c d)) :
    (k = "frequency" ∧ c.frequency ≠ none) ∨ k ∈ keysOf d := by
  unfold step_frequency at h
  split at h
  next fr hf =>
    rcases mem_keysOf_updateKey h with h' | h'
    · exact Or.inl ⟨h', truthyStr_ne_none hf⟩
    · exact Or.inr h'
  next => exact Or.inr h

theorem keys_step_interval {c : CallData} {d : Payload} {k : String}
    (h : k ∈ keysOf (step_interval c d)) :
    (k = "everyX" ∧ c.interval ≠ none) ∨ k ∈ keysOf d := by
  unfold step_interval at h
  split at h
  next n hn =>
    rcases mem_keysOf_updateKey h with h' | h'
    · exact Or.inl ⟨h', truthyInt_ne_none hn⟩
    · exact Or.inr h'
  next => exact Or.inr h

theorem keys_step_up_down {c : CallData} {d : Payload} {k : String}
    (h : k ∈ keysOf (step_up_down c d)) :
    ((k = "up" ∨ k = "down") ∧ c.up_down ≠ none) ∨ k ∈ keysOf d := by
  unfold step_up_down at h
  split at h
  next ud hud =>
    rcases mem_keysOf_updateKey h with h' | h'
    · exact Or.inl ⟨Or.inr h', truthyList_ne_none hud⟩
    · rcases mem_keysOf_updateKey h' with h'' | h''
      · exact Or.inl ⟨Or.inl h'', truthyList_ne_none hud⟩
      · exact Or.inr h''
  next => exact Or.inr h

theorem keys_step_start_date {c : CallData} {d : Payload} {k : String}
    (h : k ∈ keysOf (step_start_date c d)) :
    (k = "startDate" ∧ c.start_date ≠ none) ∨ k ∈ keysOf d := by
  unfold step_start_date at h
  split at h
  next sd hsd =>
    rcases mem_keysOf_updateKey h with h' | h'
    · exact Or.inl ⟨h', by simp [hsd]⟩
    · exact Or.inr h'
  next => exact Or.inr h

theorem keys_step_repeat {ct : CurrentTask} {c : CallData} {d d' : Payload} {k : String}
    (hok : step_repeat ct c d = .ok d') (h : k ∈ keysOf d') :
    (k = "repeat" ∧ c.rpt ≠ none) ∨ k ∈ keysOf d := by
  unfold step_repeat at hok
  split at hok
  next rep hrep =>
    split at hok
    · rw [Except.ok.injEq] at hok
      subst hok
      rcases mem_keysOf_updateKey h with h' | h'
      · exact Or.inl ⟨h', truthyList_ne_none hrep⟩
      · exact Or.inr h'
    · cases hok
  next =>
    rw [Except.ok.injEq] at hok
    subst hok
    exact Or.inr h

theorem keys_applyRepeatMonthly {rm : RepeatMonthly} {sd : Int} {d : Payload} {k : String}
    (h : k ∈ keysOf (applyRepeatMonthly rm sd d)) :
    (k = "weeksOfMonth" ∨ k = "repeat" ∨ k = "daysOfMonth") ∨ k ∈ keysOf d := by
  cases rm with
  | day_of_week =>
      unfold applyRepeatMonthly at h
      rcases mem_keysOf_updateKey h with h' | h'
      · exact Or.inl (Or.inr (Or.inr h'))
      · rcases mem_keysOf_updateKey h' with h'' | h''
        · exact Or.inl (Or.inr (Or.inl h''))
        · rcases mem_keysOf_updateKey h'' with h3 | h3
          · exact Or.inl (Or.inl h3)
          · exact Or.inr h3
  | day_of_month =>
      unfold applyRepeatMonthly at h
      rcases mem_keysOf_updateKey h with h' | h'
      · exact Or.inl (Or.inl h')
      · rcases mem_keysOf_updateKey h' with h'' | h''
        · exact Or.inl (Or.inr (Or.inr h''))
        · exact Or.inr h''

theorem keys_step_repeat_monthly {off : Int} {ct : CurrentTask} {c : CallData}
    {d d' : Payload} {k : String}
    (hok : step_repeat_monthly off ct c d = .ok d') (h : k ∈ keysOf d') :
    ((k = "weeksOfMonth" ∨ k = "repeat" ∨ k = "daysOfMonth") ∧ c.repeat_monthly ≠ none) ∨
      k ∈ keysOf d := by
  unfold step_repeat_monthly at hok
  split at hok
  next rm hrm =>
    have hne : c.repeat_monthly ≠ none := by simp [hrm]
    split at hok
    · cases hok
    · split at hok
      next sd hsd =>
        rw [Except.ok.injEq] at hok
        subst hok
        rcases keys_applyRepeatMonthly h with h' | h'
        · exact Or.inl ⟨h', hne⟩
        · exact Or.inr h'
      next =>
        split at hok
        next sd hsd =>
          rw [Except.ok.injEq] at hok
          subst hok
          rcases keys_applyRepeatMonthly h with h' | h'
          · exact Or.inl ⟨h', hne⟩
          · exact Or.inr h'
        next => cases hok
  next =>
    rw [Except.ok.injEq] at hok
    subst hok
    exact Or.inr h

theorem keys_step_reminder {uuids : Nat → String} {ct : CurrentTask} {c : CallData}
    {d : Payload} {k : String}
    (h : k ∈ keysOf (step_reminder uuids ct c d)) :
    (k = "reminders" ∧ c.reminder ≠ none) ∨ k ∈ keysOf d := by
  unfold step_reminder at h
  split at h
  next rs hrs =>
    rcases mem_keysOf_updateKey h with h' | h'
    · exact Or.inl ⟨h', truthyList_ne_none hrs⟩
    · exact Or.inr h'
  next => exact Or.inr h

theorem keys_step_reminder_time {uuids : Nat → String} {todayD : Int} {ct : CurrentTask}
    {c : CallData} {d : Payload} {k : String}
    (h : k ∈ keysOf (step_reminder_time uuids todayD ct c d)) :
    (k = "reminders" ∧ c.reminder_time ≠ none) ∨ k ∈ keysOf d := by
  unfold step_reminder_time at h
  split at h
  next rts hrts =>
    rcases mem_keysOf_updateKey h with h' | h'
    · exact Or.inl ⟨h', truthyList_ne_none hrts⟩
    · exact Or.inr h'
  next => exact Or.inr h

theorem keys_step_remove_reminder {ct : CurrentTask} {c : CallData} {d : Payload} {k : String}
    (h : k ∈ keysOf (step_remove_reminder ct c d)) :
    (k = "reminders" ∧ c.remove_reminder ≠ none) ∨ k ∈ keysOf d := by
  unfold step_remove_reminder at h
  split at h
  next rs hrs =>
    rcases mem_keysOf_updateKey h with h' | h'
    · exact Or.inl ⟨h', truthyList_ne_none hrs⟩
    · exact Or.inr h'
  next => exact Or.inr h

theorem keys_step_remove_reminder_time {ct : CurrentTask} {c : CallData} {d : Payload}
    {k : String}
    (h : k ∈ keysOf (step_remove_reminder_time ct c d)) :
    (k = "reminders" ∧ c.remove_reminder_time ≠ none) ∨ k ∈ keysOf d := by
  unfold step_remove_reminder_time at h
  split at h
  next rts hrts =>
    rcases mem_keysOf_updateKey h with h' | h'
    · exact Or.inl ⟨h', truthyList_ne_none hrts⟩
    · exact Or.inr h'
  next => exact Or.inr h

theorem keys_step_clear_reminder {c : CallData} {d : Payload} {k : String}
    (h : k ∈ keysOf (step_clear_reminder c d)) :
    (k = "reminders" ∧ c.clear_reminder = true) ∨ k ∈ keysOf d := by
  unfold step_clear_reminder at h
  split at h
  next hcr =>
    rcases mem_keysOf_updateKey h with h' | h'
    · exact Or.inl ⟨h', hcr⟩
    · exact Or.inr h'
  next => exact Or.inr h

theorem keys_step_streak {c : CallData} {d : Payload} {k : String}
    (h : k ∈ keysOf (step_streak c d)) :
    (k = "streak" ∧ c.streak ≠ none) ∨ k ∈ keysOf d := by
  unfold step_streak at h
  split at h
  next n hn =>
    rcases mem_keysOf_updateKey h with h' | h'
    · exact Or.inl ⟨h', truthyInt_ne_none hn⟩
    · exact Or.inr h'
  next => exact Or.inr h

theorem keys_step_counter_up {c : CallData} {d : Payload} {k : String}
    (h : k ∈ keysOf (step_counter_up c d)) :
    (k = "counterUp" ∧ c.counter_up ≠ none) ∨ k ∈ keysOf d := by
  unfold step_counter_up at h
  split at h
  next n hn =>
    rcases mem_keysOf_updateKey h with h' | h'
    · exact Or.inl ⟨h', truthyInt_ne_none hn⟩
    · exact Or.inr h'
  next => exact Or.inr h

theorem keys_step_counter_down {c : CallData} {d : Payload} {k : String}
    (h : k ∈ keysOf (step_counter_down c d)) :
    (k = "counterDown" ∧ c.counter_down ≠ none) ∨ k ∈ keysOf d := by
  unfold step_counter_down at h
  split at h
  next n hn =>
    rcases mem_keysOf_updateKey h with h' | h'
    · exact Or.inl ⟨h', truthyInt_ne_none hn⟩
    · exact Or.inr h'
  next => exact Or.inr h

/-- Claim C7: a call carrying only `priority: "hard"` produces exactly the
payload `{"priority": 2}`; in general every key of the submitted payload
stems from a field explicitly present in the call. -/
theorem update_task_payload_minimal :
    (∀ (uuids : Nat → String) (todayD off : Int) (ct : CurrentTask)
        (uts : List HabiticaTag) (create : String → String),
      update_task_data uuids todayD off ct uts create
          { emptyCall with priority := some Priority.hard } =
        .ok [("priority", Value.num 2)]) ∧
    (∀ (uuids : Nat → String) (todayD off : Int) (ct : CurrentTask)
        (uts : List HabiticaTag) (create : String → String) (c : CallData) (d : Payload),
      update_task_data uuids todayD off ct uts create c = .ok d →
      ∀ k, k ∈ keysOf d → keyJustified k c) := by
  constructor
  · intro uuids todayD off ct uts create
    rfl
  · intro uuids todayD off ct uts create c d hok k hk
    unfold update_task_data at hok
    simp only [] at hok
    rcases hrep : step_repeat ct c (step_start_date c (step_up_down c (step_interval c
        (step_frequency c (step_checklist uuids ct c (step_cost c (step_alias c
        (step_tags ct uts create c (step_clear_date c (step_date c (step_priority c
        (step_description c (step_rename c []))))))))))))) with e | d1
    · rw [hrep] at hok
      simp at hok
    · rw [hrep] at hok
      simp only [] at hok
      rcases hrm : step_repeat_monthly off ct c d1 with e | d2
      · rw [hrm] at hok
        simp at hok
      · rw [hrm] at hok
        simp only [Except.ok.injEq] at hok
        subst hok
        rcases keys_step_counter_down hk with ⟨hkk, hp⟩ | hk
        · exact .inr (.inr (.inr (.inr (.inr (.inr (.inr (.inr (.inr (.inr (.inr (.inr
            (.inr (.inr (.inr (.inr (.inr ⟨hkk, hp⟩))))))))))))))))
        rcases keys_step_counter_up hk with ⟨hkk, hp⟩ | hk
        · exact .inr (.inr (.inr (.inr (.inr (.inr (.inr (.inr (.inr (.inr (.inr (.inr
            (.inr (.inr (.inr (.inr (.inl ⟨hkk, hp⟩))))))))))))))))
        rcases keys_step_streak hk with ⟨hkk, hp⟩ | hk
        · exact .inr (.inr (.inr (.inr (.inr (.inr (.inr (.inr (.inr (.inr (.inr (.inr
            (.inr (.inr (.inr (.inl ⟨hkk, hp⟩)))))))))))))))
        rcases keys_step_clear_reminder hk with ⟨hkk, hp⟩ | hk
        · exact .inr (.inr (.inr (.inr (.inr (.inr (.inr (.inr (.inr (.inr (.inr (.inr
            (.inr (.inr (.inl ⟨hkk, .inr (.inr (.inr (.inr hp)))⟩))))))))))))))
        rcases keys_step_remove_reminder_time hk with ⟨hkk, hp⟩ | hk
        · exact .inr (.inr (.inr (.inr (.inr (.inr (.inr (.inr (.inr (.inr (.inr (.inr
            (.inr (.inr (.inl ⟨hkk, .inr (.inr (.inr (.inl hp)))⟩))))))))))))))
        rcases keys_step_remove_reminder hk with ⟨hkk, hp⟩ | hk
        · exact .inr (.inr (.inr (.inr (.inr (.inr (.inr (.inr (.inr (.inr (.inr (.inr
            (.inr (.inr (.inl ⟨hkk, .inr (.inr (.inl hp))⟩))))))))))))))
        rcases keys_step_reminder_time hk with ⟨hkk, hp⟩ | hk
        · exact .inr (.inr (.inr (.inr (.inr (.inr (.inr (.inr (.inr (.inr (.inr (.inr
            (.inr (.inr (.inl ⟨hkk, .inr (.inl hp)⟩))))))))))))))
        rcases keys_step_reminder hk with ⟨hkk, hp⟩ | hk
        · exact .inr (.inr (.inr (.inr (.inr (.inr (.inr (.inr (.inr (.inr (.inr (.inr
            (.inr (.inr (.inl ⟨hkk, .inl hp⟩))))))))))))))
        rcases keys_step_repeat_monthly hrm hk with ⟨hkk, hp⟩ | hk
        · rcases hkk with hkk | hkk | hkk
          · exact .inr (.inr (.inr (.inr (.inr (.inr (.inr (.inr (.inr (.inr (.inr (.inr
              (.inr (.inl ⟨.inl hkk, hp⟩)))))))))))))
          · exact .inr (.inr (.inr (.inr (.inr (.inr (.inr (.inr (.inr (.inr (.inr (.inr
              (.inl ⟨hkk, .inr hp⟩))))))))))))
          · exact .inr (.inr (.inr (.inr (.inr (.inr (.inr (.inr (.inr (.inr (.inr (.inr
              (.inr (.inl ⟨.inr hkk, hp⟩)))))))))))))
        rcases keys_step_repeat hrep hk with ⟨hkk, hp⟩ | hk
        · exact .inr (.inr (.inr (.inr (.inr (.inr (.inr (.inr (.inr (.inr (.inr (.inr
            (.inl ⟨hkk, .inl hp⟩))))))))))))
        rcases keys_step_start_date hk with ⟨hkk, hp⟩ | hk
        · exact .inr (.inr (.inr (.inr (.inr (.inr (.inr (.inr (.inr (.inr (.inr
            (.inl ⟨hkk, hp⟩)))))))))))
        rcases keys_step_up_down hk with ⟨hkk, hp⟩ | hk
        · exact .inr (.inr (.inr (.inr (.inr (.inr (.inr (.inr (.inr (.inr
            (.inl ⟨hkk, hp⟩))))))))))
        rcases keys_step_interval hk with ⟨hkk, hp⟩ | hk
        · exact .inr (.inr (.inr (.inr (.inr (.inr (.inr (.inr (.inr
            (.inl ⟨hkk, hp⟩)))))))))
        rcases keys_step_frequency hk with ⟨hkk, hp⟩ | hk
        · exact .inr (.inr (.inr (.inr (.inr (.inr (.inr (.inr (.inl ⟨hkk, hp⟩))))))))
        rcases keys_step_checklist hk with ⟨hkk, hp⟩ | hk
        · exact .inr (.inr (.inr (.inr (.inr (.inr (.inr (.inl ⟨hkk, hp⟩)))))))
        rcases keys_step_cost hk with ⟨hkk, hp⟩ | hk
        · exact .inr (.inr (.inr (.inr (.inr (.inr (.inl ⟨hkk, hp⟩))))))
        rcases keys_step_alias hk with ⟨hkk, hp⟩ | hk
        · exact .inr (.inr (.inr (.inr (.inr (.inl ⟨hkk, hp⟩)))))
        rcases keys_step_tags hk with ⟨hkk, hp⟩ | hk
        · exact .inr (.inr (.inr (.inr (.inl ⟨hkk, hp⟩))))
        rcases keys_step_clear_date hk with ⟨hkk, hp⟩ | hk
        · exact .inr (.inr (.inr (.inl ⟨hkk, .inr hp⟩)))
        rcases keys_step_date hk with ⟨hkk, hp⟩ | hk
        · exact .inr (.inr (.inr (.inl ⟨hkk, .inl hp⟩)))
        rcases keys_step_priority hk with ⟨hkk, hp⟩ | hk
        · exact .inr (.inr (.inl ⟨hkk, hp⟩))
        rcases keys_step_description hk with ⟨hkk, hp⟩ | hk
        · exact .inr (.inl ⟨hkk, hp⟩)
        rcases keys_step_rename hk with ⟨hkk, hp⟩ | hk
        · exact .inl ⟨hkk, hp⟩
        exact absurd hk (by simp [keysOf])

/-- Witness for `update_task_payload_minimal`. -/
theorem update_task_payload_minimal_witness :
    keyJustified "priority" { emptyCall with priority := some Priority.hard } :=
  update_task_payload_minimal.2 (fun _ => "") 0 0 plainCurrentTask [] (fun _ => "")
    { emptyCall with priority := some Priority.hard } [("priority", Value.num 2)]
    (update_task_payload_minimal.1 (fun _ => "") 0 0 plainCurrentTask [] (fun _ => ""))
    "priority" (by simp [keysOf])

end Habitica

